import Mathlib

/-!
Verification development for the protoactor-cpp core: a shallow embedding of
the mailbox scheduling engine (`include/protoactor/mailbox.hpp`), the message
ownership discipline (`include/protoactor/types.hpp`) and the process
addressing layer (`include/protoactor/protoactor.hpp`), together with theorems
about the drain state machine, suspension, failure escalation, the process
registry and PID resolution.
-/

namespace ProtoActor

/-! ## Messages (`types.hpp`, message classes of `protoactor.hpp` / `mailbox.hpp`)

`MsgType` records the dynamic type of a `Message` as discriminated by the
`dynamic_cast` checks in the source (`StartedMessage`, `StopMessage`,
`SuspendMailboxMessage`, `ResumeMailboxMessage`, and plain user messages);
`doNotDelete` is the `do_not_delete_` field set by the `Message` constructor. -/

inductive MsgType
  | started
  | stop
  | suspendMailbox
  | resumeMailbox
  | user (payload : Nat)
deriving DecidableEq

structure Message where
  type : MsgType
  doNotDelete : Bool
deriving DecidableEq

/-- `Message::Deleter::operator()`: deletes the pointee exactly when it is
non-null and its `do_not_delete_` flag is false.  Returns whether the
destructor is invoked. -/
def deleterDeletes : Option Message → Bool
  | Option.none => false
  | Option.some m => !m.doNotDelete

/-- `StartedMessage::instance()`: the constructor passes `true` for
`do_not_delete`. -/
def startedMessage : Message := ⟨MsgType.started, true⟩

/-- `StopMessage::instance()`: the constructor passes `true` for
`do_not_delete`. -/
def stopMessage : Message := ⟨MsgType.stop, true⟩

/-- `SuspendMailboxMessage` declares no constructor, so it uses
`SystemMessage`'s default argument `do_not_delete = false`. -/
def suspendMailboxMessage : Message := ⟨MsgType.suspendMailbox, false⟩

/-- `ResumeMailboxMessage` declares no constructor, so it uses
`SystemMessage`'s default argument `do_not_delete = false`. -/
def resumeMailboxMessage : Message := ⟨MsgType.resumeMailbox, false⟩

/-- A user message built by `PID::tell<TMessage>`; the protected `Message`
constructor defaults `do_not_delete` to false. -/
def mkUser (payload : Nat) : Message := ⟨MsgType.user payload, false⟩

/-! ## Mailbox state (`DefaultMailbox` of `mailbox.hpp`)

The two queues are `system_messages_` and `user_mailbox_` (FIFO lists, head =
next pop), `suspended` is `suspended_`, `status` is the atomic `status_`.
The invoker is abstracted by a `Throws` function saying which exception (if
any) an invocation of a given message raises; everything the drain does is
recorded in an `Event` trace (invocations, statistics notifications, queue
pushes, escalations and dispatcher scheduling). -/

inductive MailboxStatus
  | idle
  | busy
deriving DecidableEq

structure DrainState where
  sysQ : List Message
  userQ : List Message
  suspended : Bool
deriving DecidableEq

structure MailboxState where
  drain : DrainState
  status : MailboxStatus
deriving DecidableEq

inductive Event
  | invokeSys (m : Message)
  | invokeUser (m : Message)
  | statReceived (m : Message)
  | escalateEv (e : Nat) (m : Option Message)
  | scheduleCall
  | statEmpty
  | statPosted (m : Message)
  | pushSys (m : Message)
  | pushUser (m : Message)
deriving DecidableEq

/-- The invoker model: which exception (if any) invoking a message raises. -/
abbrev Throws := Message → Option Nat

/-- An invoker that never throws. -/
def noThrows : Throws := fun _ => Option.none

/-- The suspend/resume update performed at the top of the system-message
branch of `DefaultMailbox::process_messages` (the two `dynamic_cast`
checks). -/
def updateSuspended (susp : Bool) (m : Message) : Bool :=
  if m.type = MsgType.suspendMailbox then true
  else if m.type = MsgType.resumeMailbox then false
  else susp

/-- The `for` loop of `DefaultMailbox::process_messages`, with the enclosing
`try`/`catch`: the fuel argument is `dispatcher_->throughput()` minus the
iterations already run.  Each iteration pops the system queue first; a popped
system message updates `suspended_` (before invocation, as in the source), is
invoked, and statistics are notified; when the system pop is empty and the
mailbox is suspended the loop breaks; otherwise a user message is popped and
invoked, and an empty user pop breaks.  An exception from the invoker aborts
the loop and is forwarded to `escalate_failure` with the in-flight message. -/
def drainLoop (throws : Throws) : Nat → DrainState → List Event × DrainState
  | 0, s => ([], s)
  | i + 1, s =>
    match s.sysQ with
    | m :: rest =>
      let s2 : DrainState := ⟨rest, s.userQ, updateSuspended s.suspended m⟩
      match throws m with
      | Option.some e => ([Event.invokeSys m, Event.escalateEv e (Option.some m)], s2)
      | Option.none =>
        let r := drainLoop throws i s2
        (Event.invokeSys m :: Event.statReceived m :: r.fst, r.snd)
    | [] =>
      if s.suspended then ([], s)
      else
        match s.userQ with
        | m :: rest =>
          let s2 : DrainState := ⟨[], rest, s.suspended⟩
          match throws m with
          | Option.some e => ([Event.invokeUser m, Event.escalateEv e (Option.some m)], s2)
          | Option.none =>
            let r := drainLoop throws i s2
            (Event.invokeUser m :: Event.statReceived m :: r.fst, r.snd)
        | [] => ([], s)

/-- `DefaultMailbox::process_messages`: runs the drain loop with
`throughput` iterations of fuel and unconditionally returns `true` (the
source's `return true;`). -/
def processMessages (throws : Throws) (tp : Nat) (d : DrainState) :
    List Event × DrainState × Bool :=
  let r := drainLoop throws tp d
  (r.fst, r.snd, true)

/-- The condition of the post-drain re-check in `DefaultMailbox::run`:
`system_messages_->has_messages() || (!suspended_ && user_mailbox_->has_messages())`. -/
def rescheduleCond (d : DrainState) : Bool :=
  !d.sysQ.isEmpty || (!d.suspended && !d.userQ.isEmpty)

/-- `DefaultMailbox::schedule`: compare-exchange of `status_` from Idle to
Busy; on success the runner is handed to the dispatcher (recorded as a
`scheduleCall` event). -/
def schedule (s : MailboxState) : List Event × MailboxState :=
  if s.status = MailboxStatus.idle then
    ([Event.scheduleCall], ⟨s.drain, MailboxStatus.busy⟩)
  else ([], s)

/-- `DefaultMailbox::run`: process messages; if `done` were false return
early (it never is); store Idle into `status_`; re-check the queues and
either `schedule()` again or notify statistics `mailbox_empty`. -/
def run (throws : Throws) (tp : Nat) (s : MailboxState) : List Event × MailboxState :=
  let r := processMessages throws tp s.drain
  if r.2.2 = false then (r.fst, ⟨r.2.1, s.status⟩)
  else
    let s1 : MailboxState := ⟨r.2.1, MailboxStatus.idle⟩
    if rescheduleCond r.2.1 then
      let r2 := schedule s1
      (r.fst ++ r2.fst, r2.snd)
    else (r.fst ++ [Event.statEmpty], s1)

/-- Execution under the `SynchronousDispatcher`: `schedule(runner)` runs
`runner` inline, so a run whose re-check rescheduled is immediately followed
by another run.  Fuel bounds the number of runs; the result collects the
event trace of each run separately. -/
def syncDrive (throws : Throws) (tp : Nat) :
    Nat → MailboxState → List (List Event) × MailboxState
  | 0, s => ([], s)
  | fuel + 1, s =>
    let r := run throws tp s
    if r.snd.status = MailboxStatus.busy then
      let r2 := syncDrive throws tp fuel r.snd
      (r.fst :: r2.fst, r2.snd)
    else ([r.fst], r.snd)

/-- `DefaultMailbox::post_system_message`: notify each statistics observer
`message_posted` (modelled as one event), push onto `system_messages_`, then
`schedule()`. -/
def postSystemMessage (m : Message) (s : MailboxState) : List Event × MailboxState :=
  let s2 : MailboxState := ⟨⟨s.drain.sysQ ++ [m], s.drain.userQ, s.drain.suspended⟩, s.status⟩
  let r := schedule s2
  (Event.statPosted m :: Event.pushSys m :: r.fst, r.snd)

/-- `DefaultMailbox::post_user_message`: notify each statistics observer
`message_posted`, push onto `user_mailbox_`, then `schedule()`. -/
def postUserMessage (m : Message) (s : MailboxState) : List Event × MailboxState :=
  let s2 : MailboxState := ⟨⟨s.drain.sysQ, s.drain.userQ ++ [m], s.drain.suspended⟩, s.status⟩
  let r := schedule s2
  (Event.statPosted m :: Event.pushUser m :: r.fst, r.snd)

/-! ## Context (`LocalContext` of `protoactor.hpp`) -/

inductive ContextState
  | none
  | alive
  | restarting
  | stopping
deriving DecidableEq

/-- The observable fields of `LocalContext`: `state_` and the current-message
slot `message_` (the actor, producer and parent pointers carry no state the
claims mention). -/
structure LocalContext where
  state : ContextState
  message : Option Message
deriving DecidableEq

inductive CtxEvent
  | receiveCall (ctx : LocalContext)
deriving DecidableEq

/-- `LocalContext::incarnate_actor`: sets `state_ = Alive` (and invokes the
producer to build the actor). -/
def incarnateActor (c : LocalContext) : LocalContext :=
  ⟨ContextState.alive, c.message⟩

/-- A freshly constructed `LocalContext`: fields start at `state_ = None`,
empty message slot, and the constructor immediately calls
`incarnate_actor`. -/
def mkLocalContext : LocalContext :=
  incarnateActor ⟨ContextState.none, Option.none⟩

/-- `LocalContext::process_message`: store the message in `message_`, call
`default_receive` (which runs `actor_->receive(context)` with the slot
filled), then reset `message_`. -/
def processMessage (c : LocalContext) (m : Message) : LocalContext × List CtxEvent :=
  let during : LocalContext := ⟨c.state, Option.some m⟩
  (⟨during.state, Option.none⟩, [CtxEvent.receiveCall during])

/-- `LocalContext::invoke_user_message`: delegates to `process_message`. -/
def invokeUserMessage (c : LocalContext) (m : Message) : LocalContext × List CtxEvent :=
  processMessage c m

/-- `LocalContext::invoke_system_message`: a `dynamic_cast` to
`StartedMessage` routes `Started` through `invoke_user_message`; every other
message falls through the `if` and nothing happens. -/
def invokeSystemMessage (c : LocalContext) (m : Message) : LocalContext × List CtxEvent :=
  if m.type = MsgType.started then invokeUserMessage c m else (c, [])

/-- `LocalContext::escalate_failure`: empty body (the default policy absorbs
the failure). -/
def escalateFailure (c : LocalContext) (_e : Nat) (_m : Option Message) :
    LocalContext × List CtxEvent :=
  (c, [])

/-! ## Processes, registry and PIDs (`protoactor.hpp`)

The heap models the `unique_ptr<Process>` objects owned by the registry
(indices play the role of `Process*` pointers; the registry never erases, so
pointers stay valid).  Every process registered by the core's spawner is a
`LocalProcess`; `DeadLetterProcess::instance()` is represented by the absence
of a pointer (`Option.none`). -/

structure LocalProcess where
  isDead : Bool
  mailbox : Nat
deriving DecidableEq

structure World where
  address : String
  heap : List LocalProcess
  registry : List (String × Nat)
deriving DecidableEq

/-- `PID`: `(address_, id_)` plus the cached `process_` pointer. -/
structure PID where
  address : String
  id : String
  cached : Option Nat
deriving DecidableEq

/-- Lookup in the registry's `id → Process` map. -/
def lookupId : List (String × Nat) → String → Option Nat
  | [], _ => Option.none
  | (k, v) :: rest, i => if k = i then Option.some v else lookupId rest i

/-- `ProcessRegistry::get`: find the id in `local_actor_refs_`; absent ids
resolve to `DeadLetterProcess::instance()` (modelled as `Option.none`). -/
def registryGet (w : World) (i : String) : Option Nat :=
  lookupId w.registry i

/-- `PID::ref`: if a process pointer is cached and it is a dead
`LocalProcess`, clear the cache and return null; a live cached pointer is
returned as-is.  With no cache, consult the registry; cache the result only
when it is not the dead-letter process; return the (possibly still null)
cache. -/
def refResolve (w : World) (p : PID) : Option Nat × PID :=
  match p.cached with
  | Option.some ptr =>
    match w.heap[ptr]? with
    | Option.some lp =>
      if lp.isDead then (Option.none, ⟨p.address, p.id, Option.none⟩)
      else (Option.some ptr, p)
    | Option.none => (Option.none, ⟨p.address, p.id, Option.none⟩)
  | Option.none =>
    match registryGet w p.id with
    | Option.some ptr => (Option.some ptr, ⟨p.address, p.id, Option.some ptr⟩)
    | Option.none => (Option.none, p)

inductive TellOutcome
  | deliveredTo (ptr : Nat) (m : Message)
  | dropped (m : Message)
deriving DecidableEq

/-- `PID::tell`: resolve via `ref()`; when `ref()` returned null fall back to
`ProcessRegistry::get`; call `send_user_message` on the resolved process.  A
`LocalProcess` posts the message to its mailbox (recorded as `deliveredTo`);
the dead-letter process drops it. -/
def tell (w : World) (p : PID) (m : Message) : TellOutcome × PID :=
  let r := refResolve w p
  match r.fst with
  | Option.some ptr => (TellOutcome.deliveredTo ptr m, r.snd)
  | Option.none =>
    match registryGet w r.snd.id with
    | Option.some ptr => (TellOutcome.deliveredTo ptr m, r.snd)
    | Option.none => (TellOutcome.dropped m, r.snd)

/-- `LocalProcess::stop`: `Process::stop` posts the `Stop` system message to
the process's mailbox, then `is_dead_.store(true)`.  Returns the updated
world and the mailbox that received `Stop`. -/
def stopProcess (w : World) (ptr : Nat) : World × Option Nat :=
  match w.heap[ptr]? with
  | Option.some lp =>
    (⟨w.address, w.heap.set ptr ⟨true, lp.mailbox⟩, w.registry⟩, Option.some lp.mailbox)
  | Option.none => (w, Option.none)

/-- `ProcessRegistry::try_add`: construct the PID from the registry's address
and the id; `emplace` under the lock; when the id is already mapped the map
is unchanged and `ProcessNameExistException` (carrying the id) is thrown;
otherwise the process is inserted under the id. -/
def tryAdd (w : World) (i : String) (p : LocalProcess) : Except String PID × World :=
  match lookupId w.registry i with
  | Option.some _ => (Except.error i, w)
  | Option.none =>
    (Except.ok ⟨w.address, i, Option.none⟩,
     ⟨w.address, w.heap ++ [p], w.registry ++ [(i, w.heap.length)]⟩)

/-! ## The default spawner (`Props::default_spawner`) -/

inductive SpawnEvent
  | createMailbox
  | registryAdd (i : String)
  | makeContext
  | registerHandlers
  | postSystem (m : Message)
  | mailboxStart
deriving DecidableEq

/-- The step sequence of a successful `Props::default_spawner` call: produce
the mailbox, `try_add` the `LocalProcess`, build the `LocalContext`,
`register_handlers`, post `Started` to the system queue, `mailbox.start()`. -/
def spawnTrace (i : String) : List SpawnEvent :=
  [SpawnEvent.createMailbox, SpawnEvent.registryAdd i, SpawnEvent.makeContext,
   SpawnEvent.registerHandlers, SpawnEvent.postSystem startedMessage,
   SpawnEvent.mailboxStart]

/-- `Props::default_spawner`: a fresh mailbox is produced, then
`ProcessRegistry::try_add` registers a live `LocalProcess` wrapping it; a
thrown `ProcessNameExistException` propagates (the remaining steps never
run); on success the remaining steps run in the order of `spawnTrace`. -/
def defaultSpawner (w : World) (i : String) :
    (Except String PID × World) × List SpawnEvent :=
  let mb := w.heap.length
  let r := tryAdd w i ⟨false, mb⟩
  match r.fst with
  | Except.error e => ((Except.error e, r.snd), [SpawnEvent.createMailbox])
  | Except.ok pid => ((Except.ok pid, r.snd), spawnTrace i)

/-! ## Trace predicates -/

/-- Whether an event is an invocation of a message on the invoker. -/
def isInvoke : Event → Bool
  | Event.invokeSys _ => true
  | Event.invokeUser _ => true
  | _ => false

/-- Tracks the `suspended_` flag along an event trace (system-message
invocations flip it exactly as the drain loop does). -/
def suspAfter : Bool → List Event → Bool
  | b, [] => b
  | b, Event.invokeSys m :: rest => suspAfter (updateSuspended b m) rest
  | b, Event.invokeUser _ :: rest => suspAfter b rest
  | b, Event.statReceived _ :: rest => suspAfter b rest
  | b, Event.escalateEv _ _ :: rest => suspAfter b rest
  | b, Event.scheduleCall :: rest => suspAfter b rest
  | b, Event.statEmpty :: rest => suspAfter b rest
  | b, Event.statPosted _ :: rest => suspAfter b rest
  | b, Event.pushSys _ :: rest => suspAfter b rest
  | b, Event.pushUser _ :: rest => suspAfter b rest

/-- Holds when, tracking the suspension flag along the trace, every user
invocation happens while the flag is down: after a `SuspendMailbox` is
handled no user message is invoked until a `ResumeMailbox` is handled. -/
def userGuard : Bool → List Event → Bool
  | _, [] => true
  | b, Event.invokeSys m :: rest => userGuard (updateSuspended b m) rest
  | b, Event.invokeUser _ :: rest => !b && userGuard b rest
  | b, Event.statReceived _ :: rest => userGuard b rest
  | b, Event.escalateEv _ _ :: rest => userGuard b rest
  | b, Event.scheduleCall :: rest => userGuard b rest
  | b, Event.statEmpty :: rest => userGuard b rest
  | b, Event.statPosted _ :: rest => userGuard b rest
  | b, Event.pushSys _ :: rest => userGuard b rest
  | b, Event.pushUser _ :: rest => userGuard b rest

/-- Holds when any escalation event in the trace is its last event. -/
def escalateLast : List Event → Bool
  | [] => true
  | Event.escalateEv _ _ :: rest => rest.isEmpty
  | Event.invokeSys _ :: rest => escalateLast rest
  | Event.invokeUser _ :: rest => escalateLast rest
  | Event.statReceived _ :: rest => escalateLast rest
  | Event.scheduleCall :: rest => escalateLast rest
  | Event.statEmpty :: rest => escalateLast rest
  | Event.statPosted _ :: rest => escalateLast rest
  | Event.pushSys _ :: rest => escalateLast rest
  | Event.pushUser _ :: rest => escalateLast rest

/-! ## Helper lemmas about the drain loop -/

theorem suspAfter_append (b : Bool) (l1 l2 : List Event) :
    suspAfter b (l1 ++ l2) = suspAfter (suspAfter b l1) l2 := by
  induction l1 generalizing b with
  | nil => simp [suspAfter]
  | cons e rest ih => cases e <;> simp [suspAfter, ih]

theorem userGuard_append (b : Bool) (l1 l2 : List Event) :
    userGuard b (l1 ++ l2) =
      (userGuard b l1 && userGuard (suspAfter b l1) l2) := by
  induction l1 generalizing b with
  | nil => simp [userGuard, suspAfter]
  | cons e rest ih => cases e <;> simp [userGuard, suspAfter, ih, Bool.and_assoc]

theorem userGuard_drainLoop (throws : Throws) (tp : Nat) (s : DrainState) :
    userGuard s.suspended (drainLoop throws tp s).fst = true := by
  induction tp generalizing s with
  | zero => simp [drainLoop, userGuard]
  | succ i ih =>
    obtain ⟨sq, uq, sp⟩ := s
    cases sq with
    | cons m rest =>
      cases h : throws m with
      | some e => simp [drainLoop, h, userGuard]
      | none =>
        have hrec := ih ⟨rest, uq, updateSuspended sp m⟩
        simp only [drainLoop, h] at hrec ⊢
        simpa [userGuard] using hrec
    | nil =>
      cases sp with
      | true => simp [drainLoop, userGuard]
      | false =>
        cases uq with
        | nil => simp [drainLoop, userGuard]
        | cons m rest =>
          cases h : throws m with
          | some e => simp [drainLoop, h, userGuard]
          | none =>
            have hrec := ih ⟨[], rest, false⟩
            simp only [drainLoop, h] at hrec ⊢
            simpa [userGuard] using hrec

theorem suspAfter_drainLoop (throws : Throws) (tp : Nat) (s : DrainState) :
    suspAfter s.suspended (drainLoop throws tp s).fst =
      (drainLoop throws tp s).snd.suspended := by
  induction tp generalizing s with
  | zero => simp [drainLoop, suspAfter]
  | succ i ih =>
    obtain ⟨sq, uq, sp⟩ := s
    cases sq with
    | cons m rest =>
      cases h : throws m with
      | some e => simp [drainLoop, h, suspAfter]
      | none =>
        have hrec := ih ⟨rest, uq, updateSuspended sp m⟩
        simp only [drainLoop, h] at hrec ⊢
        simpa [suspAfter] using hrec
    | nil =>
      cases sp with
      | true => simp [drainLoop, suspAfter]
      | false =>
        cases uq with
        | nil => simp [drainLoop, suspAfter]
        | cons m rest =>
          cases h : throws m with
          | some e => simp [drainLoop, h, suspAfter]
          | none =>
            have hrec := ih ⟨[], rest, false⟩
            simp only [drainLoop, h] at hrec ⊢
            simpa [suspAfter] using hrec

theorem countP_isInvoke_drainLoop (throws : Throws) (tp : Nat) (s : DrainState) :
    (drainLoop throws tp s).fst.countP isInvoke ≤ tp := by
  induction tp generalizing s with
  | zero => simp [drainLoop]
  | succ i ih =>
    obtain ⟨sq, uq, sp⟩ := s
    cases sq with
    | cons m rest =>
      cases h : throws m with
      | some e => simp [drainLoop, h, List.countP_cons, isInvoke]
      | none =>
        have hrec := ih ⟨rest, uq, updateSuspended sp m⟩
        simp only [drainLoop, h] at hrec ⊢
        simp [List.countP_cons, isInvoke]
        omega
    | nil =>
      cases sp with
      | true => simp [drainLoop]
      | false =>
        cases uq with
        | nil => simp [drainLoop]
        | cons m rest =>
          cases h : throws m with
          | some e => simp [drainLoop, h, List.countP_cons, isInvoke]
          | none =>
            have hrec := ih ⟨[], rest, false⟩
            simp only [drainLoop, h] at hrec ⊢
            simp [List.countP_cons, isInvoke]
            omega

theorem escalateLast_drainLoop (throws : Throws) (tp : Nat) (s : DrainState) :
    escalateLast (drainLoop throws tp s).fst = true := by
  induction tp generalizing s with
  | zero => simp [drainLoop, escalateLast]
  | succ i ih =>
    obtain ⟨sq, uq, sp⟩ := s
    cases sq with
    | cons m rest =>
      cases h : throws m with
      | some e => simp [drainLoop, h, escalateLast]
      | none =>
        have hrec := ih ⟨rest, uq, updateSuspended sp m⟩
        simp only [drainLoop, h] at hrec ⊢
        simpa [escalateLast] using hrec
    | nil =>
      cases sp with
      | true => simp [drainLoop, escalateLast]
      | false =>
        cases uq with
        | nil => simp [drainLoop, escalateLast]
        | cons m rest =>
          cases h : throws m with
          | some e => simp [drainLoop, h, escalateLast]
          | none =>
            have hrec := ih ⟨[], rest, false⟩
            simp only [drainLoop, h] at hrec ⊢
            simpa [escalateLast] using hrec

theorem escalate_mem_drainLoop (throws : Throws) (tp : Nat) (s : DrainState)
    (e : Nat) (om : Option Message)
    (hmem : Event.escalateEv e om ∈ (drainLoop throws tp s).fst) :
    ∃ m, om = Option.some m ∧ throws m = Option.some e := by
  induction tp generalizing s with
  | zero => simp [drainLoop] at hmem
  | succ i ih =>
    obtain ⟨sq, uq, sp⟩ := s
    cases sq with
    | cons m rest =>
      cases h : throws m with
      | some ex =>
        simp [drainLoop, h] at hmem
        exact ⟨m, by simp [hmem.2], by simp [h, hmem.1]⟩
      | none =>
        simp only [drainLoop, h] at hmem
        simp at hmem
        exact ih ⟨rest, uq, updateSuspended sp m⟩ hmem
    | nil =>
      cases sp with
      | true => simp [drainLoop] at hmem
      | false =>
        cases uq with
        | nil => simp [drainLoop] at hmem
        | cons m rest =>
          cases h : throws m with
          | some ex =>
            simp [drainLoop, h] at hmem
            exact ⟨m, by simp [hmem.2], by simp [h, hmem.1]⟩
          | none =>
            simp only [drainLoop, h] at hmem
            simp at hmem
            exact ih ⟨[], rest, false⟩ hmem

theorem scheduleCall_not_mem_drainLoop (throws : Throws) (tp : Nat) (s : DrainState) :
    Event.scheduleCall ∉ (drainLoop throws tp s).fst := by
  induction tp generalizing s with
  | zero => simp [drainLoop]
  | succ i ih =>
    obtain ⟨sq, uq, sp⟩ := s
    cases sq with
    | cons m rest =>
      cases h : throws m with
      | some e => simp [drainLoop, h]
      | none =>
        have hrec := ih ⟨rest, uq, updateSuspended sp m⟩
        simp only [drainLoop, h] at hrec ⊢
        simpa using hrec
    | nil =>
      cases sp with
      | true => simp [drainLoop]
      | false =>
        cases uq with
        | nil => simp [drainLoop]
        | cons m rest =>
          cases h : throws m with
          | some e => simp [drainLoop, h]
          | none =>
            have hrec := ih ⟨[], rest, false⟩
            simp only [drainLoop, h] at hrec ⊢
            simpa using hrec

/-- `run` unfolded: the drain trace followed by either a reschedule or the
`mailbox_empty` notification, with the status set accordingly. -/
theorem run_eq (throws : Throws) (tp : Nat) (s : MailboxState) :
    run throws tp s =
      (if rescheduleCond (drainLoop throws tp s.drain).snd then
        ((drainLoop throws tp s.drain).fst ++ [Event.scheduleCall],
         ⟨(drainLoop throws tp s.drain).snd, MailboxStatus.busy⟩)
      else
        ((drainLoop throws tp s.drain).fst ++ [Event.statEmpty],
         ⟨(drainLoop throws tp s.drain).snd, MailboxStatus.idle⟩)) := by
  cases hc : rescheduleCond (drainLoop throws tp s.drain).snd <;>
    simp [run, processMessages, schedule, hc]

theorem userGuard_run (throws : Throws) (tp : Nat) (s : MailboxState) :
    userGuard s.drain.suspended (run throws tp s).fst = true := by
  rw [run_eq]
  split <;>
    simp [userGuard_append, userGuard_drainLoop, userGuard]

theorem suspAfter_run (throws : Throws) (tp : Nat) (s : MailboxState) :
    suspAfter s.drain.suspended (run throws tp s).fst =
      (run throws tp s).snd.drain.suspended := by
  rw [run_eq]
  split <;>
    simp [suspAfter_append, suspAfter_drainLoop, suspAfter]

theorem userGuard_syncDrive (throws : Throws) (tp fuel : Nat) (s : MailboxState) :
    userGuard s.drain.suspended ((syncDrive throws tp fuel s).fst.flatten) = true := by
  induction fuel generalizing s with
  | zero => simp [syncDrive, userGuard]
  | succ f ih =>
    cases hb : (run throws tp s).snd.status with
    | busy =>
      have hrec := ih (run throws tp s).snd
      simp only [syncDrive, hb]
      simp [userGuard_append, userGuard_run, suspAfter_run, hrec]
    | idle =>
      simp only [syncDrive, hb]
      simp [userGuard_append, userGuard_run, userGuard]

/-! ## Registry helper lemmas -/

theorem lookupId_append_last (l : List (String × Nat)) (i : String) (n : Nat)
    (h : lookupId l i = Option.none) :
    lookupId (l ++ [(i, n)]) i = Option.some n := by
  induction l with
  | nil => simp [lookupId]
  | cons kv rest ih =>
    obtain ⟨k, v⟩ := kv
    by_cases hk : k = i
    · subst hk; simp [lookupId] at h
    · simp [lookupId, hk] at h ⊢
      exact ih h

theorem getElem_append_length {α : Type} (l : List α) (p : α) :
    (l ++ [p])[l.length]? = Option.some p := by
  induction l with
  | nil => rfl
  | cons a rest ih => simp [ih]

/-! ## Scenario states -/

/-- A world holding one live `LocalProcess` (pointer 0, mailbox 0) registered
under id `a`, as left by a spawn. -/
def c1World : World := ⟨"nonhost", [⟨false, 0⟩], [("a", 0)]⟩

/-- A freshly constructed `PID("nonhost", "a")` with no cached process. -/
def c1Pid : PID := ⟨"nonhost", "a", Option.none⟩

/-! ## Claims -/

/-- Claim C1: the claim says that after `LocalProcess::stop` the next
resolution performed by the PID (`PID::ref` followed by the registry
fallback in `PID::tell`) yields the DeadLetterProcess, so a subsequent
`tell` drops the message.  The code disagrees: `stop` never removes the
process from `ProcessRegistry`, so while `ref()` does clear the stale cache
and return null, `tell`'s fallback `ProcessRegistry::get` still finds the
dead `LocalProcess` under the id and posts the user message to the stopped
actor's mailbox.  This theorem evaluates the embedded code at that failing
input: the `tell` after `stop` delivers to process 0 (mailbox 0) and is not
dropped. -/
theorem C1_dead_process_still_receives :
  (tell c1World c1Pid (mkUser 1)).snd = ⟨"nonhost", "a", Option.some 0⟩ ∧
  (stopProcess c1World 0).snd = Option.some 0 ∧
  ((stopProcess c1World 0).fst.heap[0]?).map LocalProcess.isDead = Option.some true ∧
  (refResolve (stopProcess c1World 0).fst ⟨"nonhost", "a", Option.some 0⟩).fst
      = Option.none ∧
  (tell (stopProcess c1World 0).fst ⟨"nonhost", "a", Option.some 0⟩ (mkUser 2)).fst
      = TellOutcome.deliveredTo 0 (mkUser 2) ∧
  (tell (stopProcess c1World 0).fst ⟨"nonhost", "a", Option.some 0⟩ (mkUser 2)).fst
      ≠ TellOutcome.dropped (mkUser 2) := by decide

/-- Claim C6: `try_add(id, process)` raises `NameAlreadyExists` (carrying the
id) exactly when the id is already mapped, leaves the registry unchanged in
that case, and on success inserts the process under the id and returns a PID
bound to the registry's address with the given id; spawning under the name
`a` twice makes the second call raise. -/
theorem C6_tryAdd_name_exists :
  (∀ (w : World) (i : String) (p : LocalProcess),
     (tryAdd w i p).fst = Except.error i ↔ lookupId w.registry i ≠ Option.none) ∧
  (∀ (w : World) (i : String) (p : LocalProcess),
     lookupId w.registry i ≠ Option.none → (tryAdd w i p).snd = w) ∧
  (∀ (w : World) (i : String) (p : LocalProcess),
     lookupId w.registry i = Option.none →
       (tryAdd w i p).fst = Except.ok ⟨w.address, i, Option.none⟩ ∧
       lookupId (tryAdd w i p).snd.registry i = Option.some w.heap.length ∧
       (tryAdd w i p).snd.heap[w.heap.length]? = Option.some p) ∧
  ((defaultSpawner (defaultSpawner ⟨"nonhost", [], []⟩ "a").fst.snd "a").fst.fst =
      Except.error "a") := by
  refine ⟨?_, ?_, ?_, ?_⟩
  · intro w i p
    cases h : lookupId w.registry i <;> simp [tryAdd, h]
  · intro w i p h
    cases hh : lookupId w.registry i with
    | none => exact absurd hh h
    | some n => simp [tryAdd, hh]
  · intro w i p h
    refine ⟨?_, ?_, ?_⟩ <;>
      simp [tryAdd, h, lookupId_append_last _ _ _ h, getElem_append_length]
  · rfl

/-- Witness for C6 at concrete inputs: a duplicate id leaves the world
unchanged, and a fresh id yields the PID bound to the registry's address. -/
theorem C6_witness :
  (tryAdd ⟨"nonhost", [⟨false, 0⟩], [("a", 0)]⟩ "a" ⟨false, 1⟩).snd =
      ⟨"nonhost", [⟨false, 0⟩], [("a", 0)]⟩ ∧
  (tryAdd ⟨"nonhost", [], []⟩ "b" ⟨false, 0⟩).fst =
      Except.ok ⟨"nonhost", "b", Option.none⟩ :=
  ⟨C6_tryAdd_name_exists.2.1 ⟨"nonhost", [⟨false, 0⟩], [("a", 0)]⟩ "a" ⟨false, 1⟩
      (by decide),
   (C6_tryAdd_name_exists.2.2.1 ⟨"nonhost", [], []⟩ "b" ⟨false, 0⟩ (by decide)).1⟩

/-- The mailbox state a post is evaluated in for the C7 counterexample. -/
def c7Start : MailboxState := ⟨⟨[], [], false⟩, MailboxStatus.idle⟩

/-- Claim C7 counterexample: the claim states the order push, then notify
statistics, then schedule, but both `post_system_message` and
`post_user_message` notify `message_posted` BEFORE pushing onto the queue:
at a concrete input the first trace event is the statistics notification,
not the push. -/
theorem C7_counterexample :
  (postSystemMessage (mkUser 5) c7Start).fst =
      [Event.statPosted (mkUser 5), Event.pushSys (mkUser 5), Event.scheduleCall] ∧
  (postSystemMessage (mkUser 5) c7Start).fst.head? ≠
      Option.some (Event.pushSys (mkUser 5)) ∧
  (postUserMessage (mkUser 5) c7Start).fst =
      [Event.statPosted (mkUser 5), Event.pushUser (mkUser 5), Event.scheduleCall] ∧
  (postUserMessage (mkUser 5) c7Start).fst.head? ≠
      Option.some (Event.pushUser (mkUser 5)) := by decide

/-- Claim C7 (amended): `post_system_message(m)` notifies the statistics
observers of the post, then pushes `m` to the system queue, then calls
`schedule`; `post_user_message(m)` likewise notifies statistics, pushes `m`
to the user queue, then schedules. -/
theorem C7_post_order_amended :
  ∀ (m : Message) (s : MailboxState),
    (postSystemMessage m s).fst =
      Event.statPosted m :: Event.pushSys m ::
        (if s.status = MailboxStatus.idle then [Event.scheduleCall] else []) ∧
    (postSystemMessage m s).snd.drain.sysQ = s.drain.sysQ ++ [m] ∧
    (postSystemMessage m s).snd.drain.userQ = s.drain.userQ ∧
    (postUserMessage m s).fst =
      Event.statPosted m :: Event.pushUser m ::
        (if s.status = MailboxStatus.idle then [Event.scheduleCall] else []) ∧
    (postUserMessage m s).snd.drain.userQ = s.drain.userQ ++ [m] ∧
    (postUserMessage m s).snd.drain.sysQ = s.drain.sysQ := by
  intro m s
  cases hs : s.status <;>
    simp [postSystemMessage, postUserMessage, schedule, hs]

/-- Recognizes the spawn step that posts `Started` to the system queue. -/
def isStartedPost : SpawnEvent → Bool
  | SpawnEvent.postSystem m => decide (m.type = MsgType.started)
  | _ => false

/-- Claim C8: `invoke_system_message` promotes `Started` to the user-visible
receive path of `invoke_user_message` (which fills the current-message slot,
runs the receive with it, and clears the slot), and the default spawner
posts exactly one `Started` to the system queue per spawn, after
`register_handlers` and before `mailbox.start()`. -/
theorem C8_started_promoted :
  (∀ (c : LocalContext) (m : Message), m.type = MsgType.started →
     invokeSystemMessage c m = invokeUserMessage c m) ∧
  (∀ (c : LocalContext) (m : Message),
     (invokeUserMessage c m).fst = ⟨c.state, Option.none⟩ ∧
     (invokeUserMessage c m).snd = [CtxEvent.receiveCall ⟨c.state, Option.some m⟩]) ∧
  (∀ (w : World) (i : String), lookupId w.registry i = Option.none →
     (defaultSpawner w i).snd = spawnTrace i) ∧
  (∀ (i : String),
     (spawnTrace i).countP isStartedPost = 1 ∧
     spawnTrace i =
       [SpawnEvent.createMailbox, SpawnEvent.registryAdd i, SpawnEvent.makeContext,
        SpawnEvent.registerHandlers, SpawnEvent.postSystem startedMessage,
        SpawnEvent.mailboxStart]) := by
  refine ⟨?_, ?_, ?_, ?_⟩
  · intro c m h
    simp [invokeSystemMessage, h]
  · intro c m
    exact ⟨rfl, rfl⟩
  · intro w i h
    simp [defaultSpawner, tryAdd, h]
  · intro i
    exact ⟨by simp [spawnTrace, List.countP_cons, isStartedPost, startedMessage], rfl⟩

/-- Witness for C8: `Started` runs the user path on a fresh context, and a
spawn into an empty registry performs exactly the spawn trace. -/
theorem C8_witness :
  invokeSystemMessage mkLocalContext startedMessage =
      invokeUserMessage mkLocalContext startedMessage ∧
  (defaultSpawner ⟨"nonhost", [], []⟩ "a").snd = spawnTrace "a" :=
  ⟨C8_started_promoted.1 mkLocalContext startedMessage rfl,
   C8_started_promoted.2.2.1 ⟨"nonhost", [], []⟩ "a" rfl⟩

/-- Claim C9 counterexample: `SuspendMailboxMessage` and
`ResumeMailboxMessage` declare no constructor and no `instance()` function,
so they are built with `do_not_delete = false` and `Message::Deleter` DOES
invoke their destructor — they are not static sentinels, contradicting the
claim's list. -/
theorem C9_counterexample :
  suspendMailboxMessage.doNotDelete = false ∧
  deleterDeletes (Option.some suspendMailboxMessage) = true ∧
  resumeMailboxMessage.doNotDelete = false ∧
  deleterDeletes (Option.some resumeMailboxMessage) = true := by decide

/-- Claim C9 (amended): for every `Message` constructed with
`do_not_delete = true` — the static sentinels being `Started` and `Stop` as
built by their `instance()` functions — `Message::Deleter` never invokes the
destructor, so the sentinel survives arbitrarily many post/pop cycles. -/
theorem C9_sentinel_not_deleted_amended :
  (∀ (m : Message), m.doNotDelete = true →
     deleterDeletes (Option.some m) = false) ∧
  startedMessage.doNotDelete = true ∧
  stopMessage.doNotDelete = true := by
  refine ⟨?_, rfl, rfl⟩
  intro m h
  simp [deleterDeletes, h]

/-- Witness for C9 (amended) at the `Started` sentinel. -/
theorem C9_witness :
  deleterDeletes (Option.some startedMessage) = false :=
  C9_sentinel_not_deleted_amended.1 startedMessage rfl

/-- Claim C10: `invoke_system_message` is a no-op for every non-`Started`
message (including `Stop`, `SuspendMailbox` and `ResumeMailbox`): the
context is returned unchanged with no receive invoked; the lifecycle state
is `Alive` from incarnation at construction, and no core operation
(`invoke_user_message`, `invoke_system_message`, `escalate_failure`) ever
changes it. -/
theorem C10_system_message_noop :
  mkLocalContext.state = ContextState.alive ∧
  (∀ (c : LocalContext) (m : Message), m.type ≠ MsgType.started →
     invokeSystemMessage c m = (c, [])) ∧
  (∀ (c : LocalContext) (m : Message), (invokeUserMessage c m).fst.state = c.state) ∧
  (∀ (c : LocalContext) (m : Message), (invokeSystemMessage c m).fst.state = c.state) ∧
  (∀ (c : LocalContext) (e : Nat) (om : Option Message),
     escalateFailure c e om = (c, [])) := by
  refine ⟨rfl, ?_, ?_, ?_, ?_⟩
  · intro c m h
    simp [invokeSystemMessage, h]
  · intro c m
    rfl
  · intro c m
    by_cases h : m.type = MsgType.started <;>
      simp [invokeSystemMessage, h, invokeUserMessage, processMessage]
  · intro c e om
    rfl

/-- Witness for C10: `Stop` delivered to a fresh context leaves it untouched
and invokes nothing. -/
theorem C10_witness :
  invokeSystemMessage mkLocalContext stopMessage = (mkLocalContext, []) :=
  C10_system_message_noop.2.1 mkLocalContext stopMessage (by decide)

/-- The ten queued user messages of the throughput scenario. -/
def tenUserMessages : List Message := (List.range 10).map mkUser

/-- A busy mailbox holding ten user messages and nothing else. -/
def c2Start : MailboxState := ⟨⟨[], tenUserMessages, false⟩, MailboxStatus.busy⟩

/-- A busy mailbox about to process a `SuspendMailbox` with one user message
queued behind it. -/
def c2SuspState : MailboxState :=
  ⟨⟨[suspendMailboxMessage], [mkUser 0], false⟩, MailboxStatus.busy⟩

/-- Claim C2 counterexample: the claim says that whenever messages remain in
either queue after the run transitions the status to Idle, the run
reschedules.  But after a run that handled `SuspendMailbox`, the user queue
still holds a message, the status is Idle, and no reschedule happens: the
re-check in `run` ignores the user queue while suspended. -/
theorem C2_counterexample :
  (run noThrows 3 c2SuspState).snd.status = MailboxStatus.idle ∧
  (run noThrows 3 c2SuspState).snd.drain.userQ = [mkUser 0] ∧
  Event.scheduleCall ∉ (run noThrows 3 c2SuspState).fst := by decide

/-- Claim C2 (amended): at most `throughput()` messages are invoked within
one run; after the run transitions the status to Idle it reschedules exactly
when the system queue is non-empty or the mailbox is unsuspended with a
non-empty user queue (a suspended mailbox with only user messages left does
not reschedule); with a synchronous dispatcher of throughput 3 and 10 queued
user messages, the runs invoke 3, 3, 3 and 1 messages, all 10 are processed
in order, and the mailbox ends idle and empty. -/
theorem C2_throughput_cap_amended :
  (∀ (throws : Throws) (tp : Nat) (s : DrainState),
     (drainLoop throws tp s).fst.countP isInvoke ≤ tp) ∧
  (∀ (throws : Throws) (tp : Nat) (s : MailboxState),
     (run throws tp s).snd.status =
       (if rescheduleCond (drainLoop throws tp s.drain).snd then MailboxStatus.busy
        else MailboxStatus.idle) ∧
     ((Event.scheduleCall ∈ (run throws tp s).fst) ↔
        rescheduleCond (drainLoop throws tp s.drain).snd = true)) ∧
  ((syncDrive noThrows 3 10 c2Start).fst.map (fun evs => evs.countP isInvoke) =
      [3, 3, 3, 1] ∧
   (syncDrive noThrows 3 10 c2Start).fst.flatten.countP isInvoke = 10 ∧
   (syncDrive noThrows 3 10 c2Start).fst.flatten.filter isInvoke =
      tenUserMessages.map Event.invokeUser ∧
   (syncDrive noThrows 3 10 c2Start).snd = ⟨⟨[], [], false⟩, MailboxStatus.idle⟩) := by
  refine ⟨countP_isInvoke_drainLoop, ?_, by decide, by decide, by decide, by decide⟩
  intro throws tp s
  cases hc : rescheduleCond (drainLoop throws tp s.drain).snd with
  | true =>
    rw [run_eq]
    simp [hc]
  | false =>
    rw [run_eq]
    simp [hc, scheduleCall_not_mem_drainLoop]

/-- Claim C3: along any drain trace (within one pass and across synchronous
runs), once the tracked suspension flag is up — set when `SuspendMailbox` is
popped — no user message is invoked until `ResumeMailbox` is popped, while a
queued system message is still popped and invoked first even when
suspended. -/
theorem C3_suspension :
  (∀ (throws : Throws) (tp : Nat) (s : DrainState),
     userGuard s.suspended (drainLoop throws tp s).fst = true) ∧
  (∀ (throws : Throws) (tp fuel : Nat) (s : MailboxState),
     userGuard s.drain.suspended ((syncDrive throws tp fuel s).fst.flatten) = true) ∧
  (∀ (throws : Throws) (tp : Nat) (s : DrainState) (m : Message) (rest : List Message),
     s.suspended = true → s.sysQ = m :: rest → 1 ≤ tp →
     ∃ tail, (drainLoop throws tp s).fst = Event.invokeSys m :: tail) := by
  refine ⟨userGuard_drainLoop, userGuard_syncDrive, ?_⟩
  intro throws tp s m rest hsusp hsys htp
  obtain ⟨i, rfl⟩ : ∃ i, tp = i + 1 := ⟨tp - 1, by omega⟩
  obtain ⟨sq, uq, sp⟩ := s
  simp only at hsusp hsys
  subst hsusp hsys
  cases h : throws m with
  | some e =>
    exact ⟨[Event.escalateEv e (Option.some m)], by simp [drainLoop, h]⟩
  | none =>
    exact ⟨Event.statReceived m ::
        (drainLoop throws i ⟨rest, uq, updateSuspended true m⟩).fst,
      by simp [drainLoop, h]⟩

/-- Witness for C3: a suspended mailbox with `Stop` at the head of the system
queue still invokes it first. -/
theorem C3_witness :
  ∃ tail, (drainLoop noThrows 1 ⟨[stopMessage], [], true⟩).fst =
      Event.invokeSys stopMessage :: tail :=
  C3_suspension.2.2 noThrows 1 ⟨[stopMessage], [], true⟩ stopMessage [] rfl rfl
    (by decide)

/-- Claim C4: in each drain iteration the system queue is popped first; a
popped system message is invoked as a system message and the iteration ends
with the user queue untouched; a user message is popped and invoked only
when the system pop came back empty and the mailbox is not suspended; an
empty user pop ends the pass; an empty system pop on a suspended mailbox
also ends the pass. -/
theorem C4_iteration_priority :
  (∀ (throws : Throws) (i : Nat) (s : DrainState) (m : Message) (rest : List Message),
     s.sysQ = m :: rest → throws m = Option.none →
     drainLoop throws (i + 1) s =
       (Event.invokeSys m :: Event.statReceived m ::
          (drainLoop throws i ⟨rest, s.userQ, updateSuspended s.suspended m⟩).fst,
        (drainLoop throws i ⟨rest, s.userQ, updateSuspended s.suspended m⟩).snd)) ∧
  (∀ (throws : Throws) (i : Nat) (s : DrainState),
     s.sysQ = [] → s.suspended = true →
     drainLoop throws (i + 1) s = ([], s)) ∧
  (∀ (throws : Throws) (i : Nat) (s : DrainState) (m : Message) (rest : List Message),
     s.sysQ = [] → s.suspended = false → s.userQ = m :: rest →
     throws m = Option.none →
     drainLoop throws (i + 1) s =
       (Event.invokeUser m :: Event.statReceived m ::
          (drainLoop throws i ⟨[], rest, false⟩).fst,
        (drainLoop throws i ⟨[], rest, false⟩).snd)) ∧
  (∀ (throws : Throws) (i : Nat) (s : DrainState),
     s.sysQ = [] → s.suspended = false → s.userQ = [] →
     drainLoop throws (i + 1) s = ([], s)) := by
  refine ⟨?_, ?_, ?_, ?_⟩
  · intro throws i s m rest hsys h
    obtain ⟨sq, uq, sp⟩ := s
    simp only at hsys
    subst hsys
    simp [drainLoop, h]
  · intro throws i s hsys hsusp
    obtain ⟨sq, uq, sp⟩ := s
    simp only at hsys hsusp
    subst hsys hsusp
    simp [drainLoop]
  · intro throws i s m rest hsys hsusp huser h
    obtain ⟨sq, uq, sp⟩ := s
    simp only at hsys hsusp huser
    subst hsys hsusp huser
    simp [drainLoop, h]
  · intro throws i s hsys hsusp huser
    obtain ⟨sq, uq, sp⟩ := s
    simp only at hsys hsusp huser
    subst hsys hsusp huser
    simp [drainLoop]

/-- Witness for C4: the four iteration shapes at concrete states. -/
theorem C4_witness :
  drainLoop noThrows 1 ⟨[stopMessage], [mkUser 0], false⟩ =
    (Event.invokeSys stopMessage :: Event.statReceived stopMessage ::
       (drainLoop noThrows 0 ⟨[], [mkUser 0], updateSuspended false stopMessage⟩).fst,
     (drainLoop noThrows 0 ⟨[], [mkUser 0], updateSuspended false stopMessage⟩).snd) ∧
  drainLoop noThrows 1 ⟨[], [mkUser 0], true⟩ = ([], ⟨[], [mkUser 0], true⟩) ∧
  drainLoop noThrows 1 ⟨[], [mkUser 0], false⟩ =
    (Event.invokeUser (mkUser 0) :: Event.statReceived (mkUser 0) ::
       (drainLoop noThrows 0 ⟨[], [], false⟩).fst,
     (drainLoop noThrows 0 ⟨[], [], false⟩).snd) ∧
  drainLoop noThrows 1 ⟨[], [], false⟩ = ([], ⟨[], [], false⟩) :=
  ⟨C4_iteration_priority.1 noThrows 0 ⟨[stopMessage], [mkUser 0], false⟩ stopMessage []
      rfl rfl,
   C4_iteration_priority.2.1 noThrows 0 ⟨[], [mkUser 0], true⟩ rfl rfl,
   C4_iteration_priority.2.2.1 noThrows 0 ⟨[], [mkUser 0], false⟩ (mkUser 0) []
      rfl rfl rfl rfl,
   C4_iteration_priority.2.2.2 noThrows 0 ⟨[], [], false⟩ rfl rfl rfl⟩

/-- An invoker that throws exception 7 on the first user message only. -/
def throwsOn0 : Throws :=
  fun m => if m = mkUser 0 then Option.some 7 else Option.none

/-- A busy mailbox whose first queued user message will make the invoker
throw. -/
def c5Start : MailboxState :=
  ⟨⟨[], [mkUser 0, mkUser 1, mkUser 2], false⟩, MailboxStatus.busy⟩

/-- Claim C5: an exception from the invoker ends the drain pass with
`escalate_failure(reason, in_flight_message)` as its final event, the
escalated pair is exactly the exception the invoker raised on that message,
`run` still stores Idle and reschedules exactly under the re-check
condition, the default `LocalContext::escalate_failure` absorbs, and on the
synchronous dispatcher (default throughput 300) the messages queued behind a
throwing one are delivered on the next run. -/
theorem C5_escalation :
  (∀ (throws : Throws) (tp : Nat) (s : DrainState),
     escalateLast (drainLoop throws tp s).fst = true) ∧
  (∀ (throws : Throws) (tp : Nat) (s : DrainState) (e : Nat) (om : Option Message),
     Event.escalateEv e om ∈ (drainLoop throws tp s).fst →
     ∃ m, om = Option.some m ∧ throws m = Option.some e) ∧
  (∀ (throws : Throws) (tp : Nat) (s : MailboxState),
     (run throws tp s).snd.status =
       (if rescheduleCond (drainLoop throws tp s.drain).snd then MailboxStatus.busy
        else MailboxStatus.idle)) ∧
  (∀ (c : LocalContext) (e : Nat) (om : Option Message),
     escalateFailure c e om = (c, [])) ∧
  ((syncDrive throwsOn0 300 5 c5Start).fst =
     [[Event.invokeUser (mkUser 0), Event.escalateEv 7 (Option.some (mkUser 0)),
       Event.scheduleCall],
      [Event.invokeUser (mkUser 1), Event.statReceived (mkUser 1),
       Event.invokeUser (mkUser 2), Event.statReceived (mkUser 2),
       Event.statEmpty]] ∧
   (syncDrive throwsOn0 300 5 c5Start).snd = ⟨⟨[], [], false⟩, MailboxStatus.idle⟩) := by
  refine ⟨escalateLast_drainLoop, escalate_mem_drainLoop, ?_, fun c e om => rfl,
    by decide, by decide⟩
  intro throws tp s
  cases hc : rescheduleCond (drainLoop throws tp s.drain).snd with
  | true =>
    rw [run_eq]
    simp [hc]
  | false =>
    rw [run_eq]
    simp [hc]

/-- Witness for C5: the escalated pair of the throwing scenario is exactly
the raised exception with its in-flight message. -/
theorem C5_witness :
  ∃ m, Option.some (mkUser 0) = Option.some m ∧ throwsOn0 m = Option.some 7 :=
  C5_escalation.2.1 throwsOn0 300 ⟨[], [mkUser 0], false⟩ 7
    (Option.some (mkUser 0)) (by decide)

end ProtoActor
